import Mathlib

/-!
Verification development for the asynchronous task manager of this
repository (source file src/AsyncIOManager.py).

The embedding below translates the manager's data model and operations
into Lean. Python floats used as timestamps are modelled as natural
numbers; the registry dict (insertion ordered, unique keys) is modelled
as an association list together with a dict-assignment operation that
overwrites in place when the key is present and appends otherwise.
The asyncio event loop is modelled by explicit tick events: a wrapper
may start, a wrapper may finish (success, failure or cancellation), a
handle may become cancelled-done without the wrapper body having run
(cancellation before the first step), and a deferred timeout callback
may fire. Display-only state (the description and info fields and the
task table rendering) is omitted; the completion callback is modelled
as an opaque notification whose invocations are counted.
-/

namespace AIOM

/-- Mirror of the TaskStatus enum of AsyncIOManager.py. -/
inductive TaskStatus
  | pending
  | running
  | completed
  | failed
  | cancelled
  | timeout
deriving DecidableEq, Repr

/-- Status is one of the four terminal values, mirroring the list
[COMPLETED, FAILED, CANCELLED, TIMEOUT] used by cleanup_tasks and
Clearfinished. -/
def isTerminal : TaskStatus → Bool
  | .completed => true
  | .failed => true
  | .cancelled => true
  | .timeout => true
  | _ => false

/-- Status is in [PENDING, RUNNING], the check used by Update,
_check_timeout and Cancelactive. -/
def isActive (s : TaskStatus) : Bool :=
  s = TaskStatus.pending || s = TaskStatus.running

/-- A Python value as stored in the result and error fields: None, a
string, a number, or an exception object (whose str() is recorded). -/
inductive PyVal
  | none
  | str (s : String)
  | num (n : Int)
  | exc (s : String)
deriving DecidableEq, Repr

/-- Python truthiness of a stored value: None is falsy, a string is
falsy when empty, a number is falsy when zero, an exception object is
always truthy. -/
def PyVal.truthy : PyVal → Bool
  | .none => false
  | .str s => s ≠ ""
  | .num n => n ≠ 0
  | .exc _ => true

/-- Identity test against None, modelling the Python check
(value is None). -/
def PyVal.isNone : PyVal → Bool
  | .none => true
  | _ => false

/-- Python truthiness of an optional timestamp: None and 0 are falsy. -/
def optTruthy : Option Nat → Bool
  | Option.none => false
  | some n => n ≠ 0

/-- Outcome of inspecting handle.exception() (and handle.result() when
exception() returned None) on a done handle: either the calls return
(exc is the stringified exception or none, res the produced value), or
the inspection itself raises a CancelledError / InvalidStateError, or
it raises some other exception. For a done asyncio task, result() does
not raise once exception() has returned None, so one joint outcome
suffices. -/
inductive ExcRes
  | val (exc : Option String) (res : PyVal)
  | raiseCancelledOrInvalid (msg : String)
  | raiseOther (msg : String)
deriving DecidableEq, Repr

/-- The asyncio.Task handle as observed by the manager: done() and
cancelled() flags, the joint outcome of exception()/result(), and
whether cancel() has been requested on it. -/
structure Handle where
  hdone : Bool
  hcancelled : Bool
  excRes : ExcRes
  cancelRequested : Bool
deriving DecidableEq, Repr

/-- Mirror of the AsyncIOTask record. The handle (self.task) is
assigned immediately after the record is stored and before any other
code can run, so it is modelled as always present. The coroutine,
description and info fields are display-only or opaque and omitted;
callbackCount is a ghost field counting completion-callback
invocations. -/
structure AsyncIOTask where
  task_id : Nat
  handle : Handle
  timeout : Option Nat
  hasCb : Bool
  callbackCount : Nat
  status : TaskStatus
  created_at : Nat
  completed_at : Option Nat
  result : PyVal
  error : PyVal
deriving DecidableEq, Repr

/-- The manager state: the registry (insertion-ordered dict from id to
record), the id counter, the frame counter, and the Clearafter
configuration value. -/
structure Manager where
  tasks : List (Nat × AsyncIOTask)
  task_counter : Nat
  frame : Nat
  clearafter : Nat
deriving DecidableEq, Repr

/-- Dict lookup by key, first match. -/
def lookupT : List (Nat × AsyncIOTask) → Nat → Option AsyncIOTask
  | [], _ => Option.none
  | p :: ps, id => if p.1 = id then some p.2 else lookupT ps id

/-- Dict assignment: overwrite in place when the key is present
(mirroring mutation of the stored record object, which keeps its
position), append otherwise. -/
def dictSet (ts : List (Nat × AsyncIOTask)) (id : Nat) (t : AsyncIOTask) :
    List (Nat × AsyncIOTask) :=
  if ts.any (fun p => p.1 = id) then
    ts.map (fun p => if p.1 = id then (id, t) else p)
  else
    ts ++ [(id, t)]

/-- A freshly submitted record, as built by the AsyncIOTask constructor
together with the wrapping and scheduling done in Run: status PENDING,
timestamps and result/error empty, a fresh not-done handle. -/
def mkTask (id now : Nat) (tmo : Option Nat) (cb : Bool) : AsyncIOTask :=
  { task_id := id
    handle := { hdone := false, hcancelled := false,
                excRes := ExcRes.val Option.none PyVal.none,
                cancelRequested := false }
    timeout := tmo
    hasCb := cb
    callbackCount := 0
    status := TaskStatus.pending
    created_at := now
    completed_at := Option.none
    result := PyVal.none
    error := PyVal.none }

/-- One element of a list or tuple passed to Run: a coroutine object or
something else. -/
inductive RunItem
  | coro
  | notCoro
deriving DecidableEq, Repr

/-- The argument of Run: a single coroutine object, a list or tuple of
items, or any other object. -/
inductive RunArg
  | single
  | coll (items : List RunItem)
  | other
deriving DecidableEq, Repr

/-- The validation at the top of Run (lines 158-171): returns the
number of coroutines to run, or the TypeError message raised. This
validation happens before any state mutation, so a raised error leaves
the manager untouched. -/
def coroutinesToRun : RunArg → Except String Nat
  | .single => Except.ok 1
  | .coll items =>
      if items.length = 1 && (items.head? = some RunItem.coro : Bool) then
        Except.ok 1
      else if items.all (fun i => i = RunItem.coro) then
        Except.ok items.length
      else
        Except.error "Iterable must contain only coroutine objects."
  | .other =>
      Except.error "Input must be a coroutine or an iterable of coroutines."

/-- The submission loop of Run (lines 173-200): for each coroutine in
order, allocate the next id, build the record, schedule the wrapper and
store the handle, and insert the record into the registry. Returns the
final manager and the list of assigned ids in submission order. -/
def runLoop (m : Manager) (n : Nat) (now : Nat) (tmo : Option Nat) (cb : Bool) :
    Manager × List Nat :=
  match n with
  | 0 => (m, [])
  | k + 1 =>
      let id := m.task_counter
      let m' : Manager :=
        { m with tasks := dictSet m.tasks id (mkTask id now tmo cb),
                 task_counter := m.task_counter + 1 }
      let r := runLoop m' k now tmo cb
      (r.1, id :: r.2)

/-- Run (lines 140-216): validate the argument, submit each coroutine,
and return the single id when exactly one task was run, otherwise the
last assigned id (None when the input list was empty). -/
def Run (m : Manager) (arg : RunArg) (now : Nat) (tmo : Option Nat) (cb : Bool) :
    Except String (Manager × Option Nat) :=
  match coroutinesToRun arg with
  | Except.error e => Except.error e
  | Except.ok n =>
      let r := runLoop m n now tmo cb
      Except.ok (r.1, if r.2.length = 1 then r.2.head? else r.2.getLast?)

/-- The record transformation applied by CancelTask when the handle is
not yet done: request cancellation, set status CANCELLED and
completed_at. -/
def cancelRecord (t : AsyncIOTask) (now : Nat) : AsyncIOTask :=
  { t with handle := { t.handle with cancelRequested := true },
           status := TaskStatus.cancelled,
           completed_at := some now }

/-- CancelTask (lines 231-242): when the id is known and its handle is
not done, cancel the handle, set CANCELLED and completed_at, and return
True; otherwise change nothing and return False. -/
def CancelTask (m : Manager) (id : Nat) (now : Nat) : Manager × Bool :=
  match lookupT m.tasks id with
  | some t =>
      if !t.handle.hdone then
        ({ m with tasks := dictSet m.tasks id (cancelRecord t now) }, true)
      else (m, false)
  | Option.none => (m, false)

/-- GetTaskResult (lines 244-250): the stored result when the record
exists with status COMPLETED, else None. -/
def GetTaskResult (m : Manager) (id : Nat) : PyVal :=
  match lookupT m.tasks id with
  | some t => if t.status = TaskStatus.completed then t.result else PyVal.none
  | Option.none => PyVal.none

/-- The f-string used by _check_timeout (line 226). The Python version
prints the timeout as a float; here it is printed as a natural number
or None. -/
def timeoutMessage (tmo : Option Nat) : String :=
  "Task timed out after " ++
    (match tmo with
     | some n => toString n
     | Option.none => "None") ++ " seconds"

/-- The record transformation applied by _check_timeout to a still
Pending/Running record: status TIMEOUT, cancel the handle when it is
not done, set error to the timeout message and set completed_at. -/
def timeoutRecord (t : AsyncIOTask) (now : Nat) : AsyncIOTask :=
  let t1 : AsyncIOTask := { t with status := TaskStatus.timeout }
  let t2 : AsyncIOTask :=
    if !t1.handle.hdone then
      { t1 with handle := { t1.handle with cancelRequested := true } }
    else t1
  { t2 with error := PyVal.str (timeoutMessage t2.timeout),
            completed_at := some now }

/-- The deferred timeout callback _check_timeout (lines 218-229),
registered by Run via call_later and fired by the event loop during a
tick. -/
def checkTimeout (m : Manager) (id : Nat) (now : Nat) : Manager :=
  match lookupT m.tasks id with
  | some t =>
      if isActive t.status then
        { m with tasks := dictSet m.tasks id (timeoutRecord t now) }
      else m
  | Option.none => m

/-- cleanup_tasks (lines 252-269): remove every record whose status is
in the terminal list and whose completed_at is truthy and strictly more
than max_age seconds in the past. A missing max_age defaults to the
Clearafter configuration value. -/
def cleanup_tasks (m : Manager) (now : Nat) (max_age : Option Nat) : Manager :=
  let ma := max_age.getD m.clearafter
  { m with tasks := m.tasks.filter (fun p =>
      !(isTerminal p.2.status && optTruthy p.2.completed_at &&
        now - p.2.completed_at.getD 0 > ma)) }

/-- The classification performed by Update on one record whose handle is
done and whose status is still Pending/Running (lines 300-331): if the
handle reports cancelled, status CANCELLED; else if it reports an
exception, status FAILED and the stringified exception is stored in
error when error is falsy; else status COMPLETED and the produced value
is stored in result when result is None; if the inspection itself
raises a CancelledError or InvalidStateError, status CANCELLED unless
already CANCELLED; on any other inspection exception, status FAILED
with a finalization error message when error is falsy. -/
def classifyRecord (t : AsyncIOTask) : AsyncIOTask :=
  if t.handle.hcancelled then
    { t with status := TaskStatus.cancelled }
  else
    match t.handle.excRes with
    | ExcRes.val (some e) _ =>
        let t' : AsyncIOTask := { t with status := TaskStatus.failed }
        if t'.error.truthy then t' else { t' with error := PyVal.str e }
    | ExcRes.val Option.none res =>
        let t' : AsyncIOTask := { t with status := TaskStatus.completed }
        if t'.result.isNone then { t' with result := res } else t'
    | ExcRes.raiseCancelledOrInvalid _ =>
        if t.status = TaskStatus.cancelled then t
        else { t with status := TaskStatus.cancelled }
    | ExcRes.raiseOther msg =>
        let t' : AsyncIOTask := { t with status := TaskStatus.failed }
        if t'.error.truthy then t'
        else { t' with error :=
                 PyVal.str ("Error during task finalization: " ++ msg) }

/-- Classification followed by the finally clause of the scan body
(lines 329-331), which sets completed_at when it is still falsy. -/
def finalizeRecord (now : Nat) (t : AsyncIOTask) : AsyncIOTask :=
  let t1 := classifyRecord t
  if optTruthy t1.completed_at then t1 else { t1 with completed_at := some now }

/-- Processing of one record by the Update scan (lines 286-345): a
record is finalized when its handle is done and its status still
Pending/Running, and the completion callback is then invoked exactly
once (the final-status-determined flag is set on every classification
branch); other records are left untouched. -/
def processRecord (now : Nat) (t : AsyncIOTask) : AsyncIOTask :=
  if t.handle.hdone && isActive t.status then
    let t' := finalizeRecord now t
    if t'.hasCb then { t' with callbackCount := t'.callbackCount + 1 } else t'
  else t

/-- The scan phase of Update: every registry record is processed in
insertion order. The source first collects the ids of newly done
records and then processes them; since collecting changes nothing, this
equals the pointwise pass modelled here. Callback bodies are opaque
notifications in this model. -/
def scan (m : Manager) (now : Nat) : Manager :=
  { m with tasks := m.tasks.map (fun p => (p.1, processRecord now p.2)) }

/-- What the supervising wrapper _task_wrapper does on the exit path of
the awaited work: on success the produced value is stored in result, on
failure the exception object is stored in error, on cancellation the
CancelledError is re-raised without touching result or error. -/
inductive WrapOutcome
  | success (res : PyVal)
  | failure (excDesc : String)
  | cancelledOut
deriving DecidableEq, Repr

/-- The handle state left behind by a finished wrapper: done, with
cancelled()/exception()/result() reflecting the outcome. Inspecting
exception() on a cancelled task raises CancelledError. -/
def finishHandle (h : Handle) : WrapOutcome → Handle
  | .success res =>
      { h with hdone := true, hcancelled := false,
               excRes := ExcRes.val Option.none res }
  | .failure e =>
      { h with hdone := true, hcancelled := false,
               excRes := ExcRes.val (some e) PyVal.none }
  | .cancelledOut =>
      { h with hdone := true, hcancelled := true,
               excRes := ExcRes.raiseCancelledOrInvalid "CancelledError" }

/-- Effect of the wrapper finishing at loop time tm (lines 123-137):
result or error is captured per outcome, the finally clause records
completed_at unconditionally, and the handle becomes done. The status
is deliberately not changed here. -/
def finishRecord (t : AsyncIOTask) (o : WrapOutcome) (tm : Nat) : AsyncIOTask :=
  let t1 : AsyncIOTask :=
    match o with
    | .success res => { t with result := res }
    | .failure e => { t with error := PyVal.exc e }
    | .cancelledOut => t
  { t1 with handle := finishHandle t1.handle o, completed_at := some tm }

/-- One event inside the single loop increment performed by Update:
a wrapper takes its first step (only possible while its handle is
neither done nor cancel-requested, since asyncio never starts a
cancelled task), a wrapper exits with some outcome, a handle of a
never-started wrapper becomes cancelled-done, or a registered timeout
callback fires. -/
inductive TickEvent
  | start (id : Nat)
  | finish (id : Nat) (o : WrapOutcome) (tm : Nat)
  | cancelDone (id : Nat)
  | timer (id : Nat) (tm : Nat)
deriving DecidableEq, Repr

/-- Loop times recorded by events are positive, as Python wall-clock
timestamps are. -/
def evTimeOK : TickEvent → Bool
  | .finish _ _ tm => tm ≠ 0
  | .timer _ tm => tm ≠ 0
  | _ => true

/-- Application of one tick event to the manager state. -/
def applyEvent (m : Manager) : TickEvent → Manager
  | .start id =>
      match lookupT m.tasks id with
      | some t =>
          if !t.handle.hdone && !t.handle.cancelRequested then
            { m with tasks :=
                dictSet m.tasks id { t with status := TaskStatus.running } }
          else m
      | Option.none => m
  | .finish id o tm =>
      match lookupT m.tasks id with
      | some t => { m with tasks := dictSet m.tasks id (finishRecord t o tm) }
      | Option.none => m
  | .cancelDone id =>
      match lookupT m.tasks id with
      | some t =>
          let h' : Handle :=
            { t.handle with hdone := true, hcancelled := true,
                            excRes := ExcRes.raiseCancelledOrInvalid "CancelledError" }
          { m with tasks := dictSet m.tasks id { t with handle := h' } }
      | Option.none => m
  | .timer id tm => checkTimeout m id tm

/-- The single loop increment performed by run_until_complete inside
Update: the ready events run in order. -/
def tick (m : Manager) (evs : List TickEvent) : Manager :=
  evs.foldl applyEvent m

/-- Update (lines 271-352): increment the frame counter, advance the
loop by one increment, scan and finalize newly done records (invoking
callbacks), and every 100th frame run the eviction sweep with the
configured default age. -/
def Update (m : Manager) (evs : List TickEvent) (now : Nat) : Manager :=
  let m1 : Manager := { m with frame := m.frame + 1 }
  let m2 := tick m1 evs
  let m3 := scan m2 now
  if m3.frame % 100 = 0 then cleanup_tasks m3 now Option.none else m3

/-- One step of Cancelactive: CancelTask is called on an id when its
record is currently Pending/Running. -/
def cancelStep (m : Manager) (now : Nat) (id : Nat) : Manager :=
  match lookupT m.tasks id with
  | some t => if isActive t.status then (CancelTask m id now).1 else m
  | Option.none => m

/-- Cancelactive (lines 368-372): iterate over the registry and cancel
every currently Pending/Running record, removing nothing. -/
def Cancelactive (m : Manager) (now : Nat) : Manager :=
  (m.tasks.map Prod.fst).foldl (fun acc id => cancelStep acc now id) m

/-- Clearall (lines 354-358): cancel all active tasks then empty the
registry. -/
def Clearall (m : Manager) (now : Nat) : Manager :=
  { Cancelactive m now with tasks := [] }

/-- Clearfinished (lines 360-366): remove exactly the terminal
records. -/
def Clearfinished (m : Manager) : Manager :=
  { m with tasks := m.tasks.filter (fun p => !isTerminal p.2.status) }

/-- The per-record view returned by GetTaskInfo (lines 395-413),
restricted to the modelled fields. -/
structure TaskInfoView where
  task_id : Nat
  status : TaskStatus
  created_at : Nat
  completed_at : Option Nat
  timeout : Option Nat
  error : PyVal
  has_result : Bool
deriving DecidableEq, Repr

/-- GetTaskInfo: the view of a record, or None for an unknown id. -/
def GetTaskInfo (m : Manager) (id : Nat) : Option TaskInfoView :=
  (lookupT m.tasks id).map (fun t =>
    { task_id := t.task_id
      status := t.status
      created_at := t.created_at
      completed_at := t.completed_at
      timeout := t.timeout
      error := t.error
      has_result := !t.result.isNone })

/-- GetAllTasksInfo (lines 415-420): the views of all records in
insertion order. -/
def GetAllTasksInfo (m : Manager) : List (Option TaskInfoView) :=
  m.tasks.map (fun p => GetTaskInfo m p.1)

/-- GetActiveTasksCount (lines 422-428). -/
def GetActiveTasksCount (m : Manager) : Nat :=
  (m.tasks.filter (fun p => isActive p.2.status)).length

/-- A manager as freshly initialized (empty registry, counter and frame
zero), with a Clearafter configuration of 300 seconds. -/
def initM : Manager :=
  { tasks := [], task_counter := 0, frame := 0, clearafter := 300 }

/-- The pointwise effect of Cancelactive on a record: a Pending/Running
record with a not-yet-done handle is cancelled, anything else is left
alone. -/
def cancelPoint (now : Nat) (t : AsyncIOTask) : AsyncIOTask :=
  if isActive t.status && !t.handle.hdone then cancelRecord t now else t

/-- Record well-formedness maintained at every public boundary of the
manager: completed_at is set exactly when the status is terminal and is
never the falsy timestamp 0; a terminal record has a done or
cancel-requested handle; a Pending/Running record never has a done
handle (the Update scan finalizes done handles in the same call). -/
def recWF (t : AsyncIOTask) : Bool :=
  (t.completed_at.isSome == isTerminal t.status) &&
  decide (t.completed_at ≠ some 0) &&
  (!isTerminal t.status || t.handle.hdone || t.handle.cancelRequested) &&
  (!isActive t.status || !t.handle.hdone)

/-- Manager well-formedness: every registry record is well-formed. -/
def WF (m : Manager) : Bool := m.tasks.all (fun p => recWF p.2)

/-- Weakened record invariant holding in the middle of a loop tick,
between a wrapper exit (which records completed_at while the status is
still Running) and the scan that finalizes the status. -/
def recWFmid (t : AsyncIOTask) : Bool :=
  (!t.completed_at.isSome || isTerminal t.status ||
     (t.handle.hdone && isActive t.status)) &&
  (!isTerminal t.status || t.completed_at.isSome) &&
  decide (t.completed_at ≠ some 0) &&
  (!isTerminal t.status || t.handle.hdone || t.handle.cancelRequested)

/-- Mid-tick manager invariant. -/
def WFmid (m : Manager) : Bool := m.tasks.all (fun p => recWFmid p.2)

/-- Registry ids are all below the id counter; maintained because Run
is the only insertion point and it uses the counter. -/
def keysBound (m : Manager) : Bool := m.tasks.all (fun p => p.1 < m.task_counter)

/-- Status of a record as seen from outside, for concrete scenarios. -/
def statusAt (m : Manager) (id : Nat) : Option TaskStatus :=
  (lookupT m.tasks id).map (fun t => t.status)

/-- Number of completion-callback invocations a record has received. -/
def cbCountAt (m : Manager) (id : Nat) : Option Nat :=
  (lookupT m.tasks id).map (fun t => t.callbackCount)

/-- Helper extracting the manager from a successful Run. -/
def runOk (m : Manager) (arg : RunArg) (now : Nat) (tmo : Option Nat)
    (cb : Bool) : Manager :=
  match Run m arg now tmo cb with
  | Except.ok r => r.1
  | Except.error _ => m

/-- Scenario: one task with a completion callback is submitted, then
cancelled by the user, then the loop acknowledges the cancellation and
two Update calls drain the work. -/
def c1s1 : Manager := runOk initM RunArg.single 1 Option.none true

/-- Scenario continuation: user cancellation at time 5. -/
def c1s2 : Manager := (CancelTask c1s1 0 5).1

/-- Scenario continuation: Update at time 7, the tick acknowledging the
cancellation of the never-started wrapper. -/
def c1s3 : Manager := Update c1s2 [TickEvent.cancelDone 0] 7

/-- Scenario continuation: one more Update at time 8. -/
def c1s4 : Manager := Update c1s3 [] 8

/-- Scenario: one task submitted at time 1 with a timeout of 10. -/
def c4s1 : Manager := runOk initM RunArg.single 1 (some 10) false

/-- Scenario continuation: within one Update tick the wrapper finishes
naturally at loop time 9 and the timeout callback then fires at loop
time 10, before any scan has classified the record. -/
def c4s2 : Manager :=
  Update c4s1 [TickEvent.finish 0 (WrapOutcome.success (PyVal.str "v")) 9,
               TickEvent.timer 0 10] 10

/-- Scenario: one task submitted at time 10 and user-cancelled at time
10, so its completed_at equals the current clock. -/
def c9s1 : Manager := (CancelTask (runOk initM RunArg.single 10 Option.none false) 0 10).1

/-- Scenario continuation: an eviction sweep with max_age 0 at the same
clock time 10. -/
def c9s2 : Manager := cleanup_tasks c9s1 10 (some 0)

/-- A pending record whose handle is done with a successful outcome,
as the Update scan encounters right after a wrapper finished. -/
def wDoneTask : AsyncIOTask :=
  { mkTask 0 1 Option.none false with
      handle := { hdone := true, hcancelled := false,
                  excRes := ExcRes.val Option.none (PyVal.str "ok"),
                  cancelRequested := false },
      completed_at := some 2 }

/-- A one-record manager holding wDoneTask. -/
def wDoneM : Manager := { initM with tasks := [(0, wDoneTask)], task_counter := 1 }

/-- The wDoneTask record with a completion callback registered. -/
def wCbTask : AsyncIOTask := { wDoneTask with hasCb := true }

/-- A one-record manager holding wCbTask. -/
def wCbM : Manager := { initM with tasks := [(0, wCbTask)], task_counter := 1 }

/-- A record already finalized as Completed. -/
def wTermTask : AsyncIOTask :=
  { mkTask 0 1 Option.none true with
      handle := { hdone := true, hcancelled := false,
                  excRes := ExcRes.val Option.none (PyVal.str "ok"),
                  cancelRequested := false },
      status := TaskStatus.completed,
      completed_at := some 2,
      result := PyVal.str "v",
      callbackCount := 1 }

/-- A one-record manager holding wTermTask. -/
def wTermM : Manager := { initM with tasks := [(0, wTermTask)], task_counter := 1 }

/-- Scenario: two tasks submitted as a batch at time 1. -/
def w5m : Manager := runOk initM (RunArg.coll [RunItem.coro, RunItem.coro]) 1 Option.none false

/-- Scenario: two tasks submitted at time 5, the first user-cancelled
at time 10 (so it is terminal with completed_at 10), the second still
pending. -/
def w9m : Manager :=
  (CancelTask (runOk initM (RunArg.coll [RunItem.coro, RunItem.coro]) 5 Option.none false) 0 10).1

/-! Lemmas about the registry operations. -/

theorem lookupT_append (ts us : List (Nat × AsyncIOTask)) (id : Nat) :
    lookupT (ts ++ us) id =
      match lookupT ts id with
      | some t => some t
      | Option.none => lookupT us id := by
  induction ts with
  | nil => rfl
  | cons p ps ih =>
      by_cases h : p.1 = id
      · simp [lookupT, h]
      · simp [lookupT, h, ih]

theorem lookupT_none_of_not_mem_keys (ts : List (Nat × AsyncIOTask)) (id : Nat)
    (h : id ∉ ts.map Prod.fst) : lookupT ts id = Option.none := by
  induction ts with
  | nil => rfl
  | cons p ps ih =>
      obtain ⟨a, b⟩ := p
      simp only [List.map_cons, List.mem_cons] at h
      push_neg at h
      have ha : ¬ a = id := fun hq => h.1 hq.symm
      simp [lookupT, ha, ih h.2]

theorem lookupT_mem (ts : List (Nat × AsyncIOTask)) (id : Nat) (t : AsyncIOTask)
    (h : lookupT ts id = some t) : (id, t) ∈ ts := by
  induction ts with
  | nil => simp [lookupT] at h
  | cons p ps ih =>
      obtain ⟨a, b⟩ := p
      by_cases hp : a = id
      · subst hp
        simp only [lookupT, if_pos] at h
        cases h
        exact List.mem_cons_self _ _
      · simp only [lookupT, hp, if_false] at h
        exact List.mem_cons_of_mem _ (ih h)

theorem any_key_of_lookupT (ts : List (Nat × AsyncIOTask)) (id : Nat)
    (t : AsyncIOTask) (h : lookupT ts id = some t) :
    ts.any (fun p => p.1 = id) = true := by
  induction ts with
  | nil => simp [lookupT] at h
  | cons p ps ih =>
      obtain ⟨a, b⟩ := p
      by_cases hp : a = id
      · simp [List.any_cons, hp]
      · simp only [lookupT, hp, if_false] at h
        simp [List.any_cons, ih h]

theorem lookupT_mapSet_self (ts : List (Nat × AsyncIOTask)) (id : Nat)
    (t : AsyncIOTask) (h : ts.any (fun p => p.1 = id) = true) :
    lookupT (ts.map (fun p => if p.1 = id then (id, t) else p)) id = some t := by
  induction ts with
  | nil => simp at h
  | cons p ps ih =>
      obtain ⟨a, b⟩ := p
      by_cases hp : a = id
      · simp [lookupT, hp]
      · simp only [List.any_cons, Bool.or_eq_true, decide_eq_true_eq] at h
        rcases h with h | h
        · exact absurd h hp
        · simp [lookupT, hp, ih h]

theorem lookupT_mapSet_ne (ts : List (Nat × AsyncIOTask)) (id j : Nat)
    (t : AsyncIOTask) (hne : j ≠ id) :
    lookupT (ts.map (fun p => if p.1 = id then (id, t) else p)) j =
      lookupT ts j := by
  induction ts with
  | nil => rfl
  | cons p ps ih =>
      obtain ⟨a, b⟩ := p
      by_cases hp : a = id
      · subst hp
        have hn : ¬ a = j := fun hq => hne hq.symm
        simp [lookupT, hn, ih]
      · simp only [List.map_cons, if_neg hp]
        by_cases haj : a = j
        · simp [lookupT, haj]
        · simp [lookupT, haj, ih]

theorem lookupT_dictSet_self (ts : List (Nat × AsyncIOTask)) (id : Nat)
    (t : AsyncIOTask) : lookupT (dictSet ts id t) id = some t := by
  unfold dictSet
  by_cases h : ts.any (fun p => p.1 = id) = true
  · rw [if_pos h]
    exact lookupT_mapSet_self ts id t h
  · rw [if_neg h]
    rw [lookupT_append]
    rw [lookupT_none_of_not_mem_keys ts id]
    · simp [lookupT]
    · intro hmem
      rcases List.mem_map.mp hmem with ⟨p, hp, hfst⟩
      exact h (List.any_eq_true.mpr ⟨p, hp, by simp [hfst]⟩)

theorem lookupT_dictSet_ne (ts : List (Nat × AsyncIOTask)) (id j : Nat)
    (t : AsyncIOTask) (hne : j ≠ id) :
    lookupT (dictSet ts id t) j = lookupT ts j := by
  unfold dictSet
  by_cases h : ts.any (fun p => p.1 = id) = true
  · rw [if_pos h]
    exact lookupT_mapSet_ne ts id j t hne
  · rw [if_neg h]
    rw [lookupT_append]
    cases hl : lookupT ts j with
    | some u => rfl
    | none =>
        have hn : ¬ id = j := fun hq => hne hq.symm
        simp [lookupT, hn]

theorem keys_dictSet (ts : List (Nat × AsyncIOTask)) (id : Nat) (t : AsyncIOTask)
    (h : ts.any (fun p => p.1 = id) = true) :
    (dictSet ts id t).map Prod.fst = ts.map Prod.fst := by
  rw [dictSet, if_pos h]
  clear h
  induction ts with
  | nil => rfl
  | cons p ps ih =>
      obtain ⟨a, b⟩ := p
      by_cases hp : a = id
      · simp [hp, ih]
      · simp [hp, ih]

theorem all_snd_dictSet (ts : List (Nat × AsyncIOTask)) (id : Nat)
    (t : AsyncIOTask) (P : AsyncIOTask → Bool)
    (h1 : ts.all (fun p => P p.2) = true) (h2 : P t = true) :
    (dictSet ts id t).all (fun p => P p.2) = true := by
  unfold dictSet
  by_cases h : ts.any (fun p => p.1 = id) = true
  · rw [if_pos h]
    simp only [List.all_map, List.all_eq_true]
    intro p hp
    by_cases hpi : p.1 = id
    · simpa [Function.comp, hpi] using h2
    · simp only [List.all_eq_true] at h1
      simpa [Function.comp, hpi] using h1 p hp
  · rw [if_neg h]
    simp only [List.all_append, Bool.and_eq_true]
    exact ⟨h1, by simp [h2]⟩

theorem lookupT_map_f (ts : List (Nat × AsyncIOTask)) (id : Nat)
    (f : AsyncIOTask → AsyncIOTask) :
    lookupT (ts.map (fun p => (p.1, f p.2))) id = (lookupT ts id).map f := by
  induction ts with
  | nil => rfl
  | cons p ps ih =>
      obtain ⟨a, b⟩ := p
      by_cases hp : a = id
      · simp [lookupT, hp]
      · simp [lookupT, hp, ih]

theorem lookupT_filter (ts : List (Nat × AsyncIOTask)) (id : Nat)
    (q : Nat × AsyncIOTask → Bool) (hnd : (ts.map Prod.fst).Nodup) :
    lookupT (ts.filter q) id =
      match lookupT ts id with
      | some t => if q (id, t) then some t else Option.none
      | Option.none => Option.none := by
  induction ts with
  | nil => rfl
  | cons p ps ih =>
      obtain ⟨a, b⟩ := p
      simp only [List.map_cons, List.nodup_cons] at hnd
      by_cases hp : a = id
      · subst hp
        have hid : a ∉ ps.map Prod.fst := by
          intro hc; exact hnd.1 hc
        by_cases hq : q (a, b) = true
        · simp [List.filter_cons, hq, lookupT]
        · rw [Bool.not_eq_true] at hq
          simp only [List.filter_cons, hq, Bool.false_eq_true, if_false]
          rw [lookupT_none_of_not_mem_keys _ a]
          · simp [lookupT, hq]
          · intro hc
            rcases List.mem_map.mp hc with ⟨u, hu, hufst⟩
            exact hid (List.mem_map.mpr ⟨u, List.mem_of_mem_filter hu, hufst⟩)
      · by_cases hq : q (a, b) = true
        · simp [List.filter_cons, hq, lookupT, hp, ih hnd.2]
        · rw [Bool.not_eq_true] at hq
          simp [List.filter_cons, hq, lookupT, hp, ih hnd.2]

/-! Lemmas about the classification of one record. -/

theorem classifyRecord_handle (t : AsyncIOTask) :
    (classifyRecord t).handle = t.handle := by
  obtain ⟨tid, ⟨hd, hcl, hex, crq⟩, tmo, hcb, cbc, st, cra, coa, res, err⟩ := t
  cases hcl
  · rcases hex with ⟨exc, hres⟩ | msg | msg
    · cases exc <;> simp only [classifyRecord] <;> split_ifs <;> rfl
    · simp only [classifyRecord]; split_ifs <;> rfl
    · simp only [classifyRecord]; split_ifs <;> rfl
  · rfl

theorem classifyRecord_completed (t : AsyncIOTask) :
    (classifyRecord t).completed_at = t.completed_at := by
  obtain ⟨tid, ⟨hd, hcl, hex, crq⟩, tmo, hcb, cbc, st, cra, coa, res, err⟩ := t
  cases hcl
  · rcases hex with ⟨exc, hres⟩ | msg | msg
    · cases exc <;> simp only [classifyRecord] <;> split_ifs <;> rfl
    · simp only [classifyRecord]; split_ifs <;> rfl
    · simp only [classifyRecord]; split_ifs <;> rfl
  · rfl

theorem classifyRecord_hasCb (t : AsyncIOTask) :
    (classifyRecord t).hasCb = t.hasCb := by
  obtain ⟨tid, ⟨hd, hcl, hex, crq⟩, tmo, hcb, cbc, st, cra, coa, res, err⟩ := t
  cases hcl
  · rcases hex with ⟨exc, hres⟩ | msg | msg
    · cases exc <;> simp only [classifyRecord] <;> split_ifs <;> rfl
    · simp only [classifyRecord]; split_ifs <;> rfl
    · simp only [classifyRecord]; split_ifs <;> rfl
  · rfl

theorem classifyRecord_count (t : AsyncIOTask) :
    (classifyRecord t).callbackCount = t.callbackCount := by
  obtain ⟨tid, ⟨hd, hcl, hex, crq⟩, tmo, hcb, cbc, st, cra, coa, res, err⟩ := t
  cases hcl
  · rcases hex with ⟨exc, hres⟩ | msg | msg
    · cases exc <;> simp only [classifyRecord] <;> split_ifs <;> rfl
    · simp only [classifyRecord]; split_ifs <;> rfl
    · simp only [classifyRecord]; split_ifs <;> rfl
  · rfl

theorem classifyRecord_status_terminal (t : AsyncIOTask) :
    isTerminal (classifyRecord t).status = true := by
  obtain ⟨tid, ⟨hd, hcl, hex, crq⟩, tmo, hcb, cbc, st, cra, coa, res, err⟩ := t
  cases hcl
  · rcases hex with ⟨exc, hres⟩ | msg | msg
    · cases exc <;> simp only [classifyRecord] <;> split_ifs <;> rfl
    · by_cases hst : st = TaskStatus.cancelled
      · simp [classifyRecord, hst, isTerminal]
      · simp [classifyRecord, hst, isTerminal]
    · simp only [classifyRecord]; split_ifs <;> rfl
  · rfl

theorem finalizeRecord_classify (now : Nat) (t : AsyncIOTask) :
    finalizeRecord now t =
      (if optTruthy (classifyRecord t).completed_at then classifyRecord t
       else { classifyRecord t with completed_at := some now }) := rfl

theorem finalizeRecord_handle (now : Nat) (t : AsyncIOTask) :
    (finalizeRecord now t).handle = t.handle := by
  rw [finalizeRecord_classify]
  split_ifs <;> simp [classifyRecord_handle]

theorem finalizeRecord_completed (now : Nat) (t : AsyncIOTask) :
    (finalizeRecord now t).completed_at =
      (if optTruthy t.completed_at then t.completed_at else some now) := by
  rw [finalizeRecord_classify]
  rw [classifyRecord_completed]
  split_ifs <;> simp [classifyRecord_completed]

theorem finalizeRecord_status_terminal (now : Nat) (t : AsyncIOTask) :
    isTerminal (finalizeRecord now t).status = true := by
  rw [finalizeRecord_classify]
  split_ifs <;> simpa using classifyRecord_status_terminal t

theorem finalizeRecord_hasCb (now : Nat) (t : AsyncIOTask) :
    (finalizeRecord now t).hasCb = t.hasCb := by
  rw [finalizeRecord_classify]
  split_ifs <;> simp [classifyRecord_hasCb]

theorem finalizeRecord_count (now : Nat) (t : AsyncIOTask) :
    (finalizeRecord now t).callbackCount = t.callbackCount := by
  rw [finalizeRecord_classify]
  split_ifs <;> simp [classifyRecord_count]

theorem processRecord_skip (now : Nat) (t : AsyncIOTask)
    (h : t.handle.hdone = false ∨ isActive t.status = false) :
    processRecord now t = t := by
  unfold processRecord
  rcases h with h | h <;> simp [h]

theorem processRecord_terminal (now : Nat) (t : AsyncIOTask)
    (h : isTerminal t.status = true) : processRecord now t = t := by
  apply processRecord_skip
  right
  cases hst : t.status <;> simp [isTerminal, hst] at h <;> rfl

theorem processRecord_fire (now : Nat) (t : AsyncIOTask)
    (hd : t.handle.hdone = true) (ha : isActive t.status = true) :
    processRecord now t =
      (if (finalizeRecord now t).hasCb then
        { finalizeRecord now t with
            callbackCount := (finalizeRecord now t).callbackCount + 1 }
       else finalizeRecord now t) := by
  unfold processRecord
  simp [hd, ha]

/-! Pointwise lemmas about the boundary and mid-tick invariants. -/

theorem recWFmid_of_recWF (t : AsyncIOTask) (h : recWF t = true) :
    recWFmid t = true := by
  obtain ⟨tid, ⟨hdb, hcl, hex, crq⟩, tmo, hcb, cbc, st, cra, coa, res, err⟩ := t
  cases st <;> cases coa <;>
    simp_all [recWF, recWFmid, isTerminal, isActive]

theorem recWF_mkTask (id now : Nat) (tmo : Option Nat) (cb : Bool) :
    recWF (mkTask id now tmo cb) = true := by
  simp [mkTask, recWF, isTerminal, isActive]

theorem recWF_cancelRecord (t : AsyncIOTask) (now : Nat) (hn : now ≠ 0) :
    recWF (cancelRecord t now) = true := by
  obtain ⟨tid, ⟨hdb, hcl, hex, crq⟩, tmo, hcb, cbc, st, cra, coa, res, err⟩ := t
  simp_all [cancelRecord, recWF, isTerminal, isActive]

theorem recWF_timeoutRecord (t : AsyncIOTask) (now : Nat) (hn : now ≠ 0) :
    recWF (timeoutRecord t now) = true := by
  obtain ⟨tid, ⟨hdb, hcl, hex, crq⟩, tmo, hcb, cbc, st, cra, coa, res, err⟩ := t
  cases hdb <;> simp_all [timeoutRecord, recWF, isTerminal, isActive]

theorem recWFmid_timeoutRecord (t : AsyncIOTask) (now : Nat) (hn : now ≠ 0) :
    recWFmid (timeoutRecord t now) = true := by
  have h := recWF_timeoutRecord t now hn
  exact recWFmid_of_recWF _ h

theorem recWFmid_finishRecord (t : AsyncIOTask) (o : WrapOutcome) (tm : Nat)
    (htm : tm ≠ 0) : recWFmid (finishRecord t o tm) = true := by
  obtain ⟨tid, ⟨hdb, hcl, hex, crq⟩, tmo, hcb, cbc, st, cra, coa, res, err⟩ := t
  rcases o with hres | e | _ <;>
    cases st <;>
      simp_all [finishRecord, finishHandle, recWFmid, isTerminal, isActive]

theorem recWFmid_startRecord (t : AsyncIOTask) (h : recWFmid t = true)
    (hd : t.handle.hdone = false) (hc : t.handle.cancelRequested = false) :
    recWFmid { t with status := TaskStatus.running } = true := by
  obtain ⟨tid, ⟨hdb, hcl, hex, crq⟩, tmo, hcb, cbc, st, cra, coa, res, err⟩ := t
  simp only at hd hc
  subst hd
  subst hc
  cases st <;> cases coa <;>
    simp_all [recWFmid, isTerminal, isActive]

theorem recWFmid_cancelDoneRecord (t : AsyncIOTask) (h : recWFmid t = true) :
    recWFmid { t with handle :=
      { t.handle with hdone := true, hcancelled := true,
                      excRes := ExcRes.raiseCancelledOrInvalid "CancelledError" } }
      = true := by
  obtain ⟨tid, ⟨hdb, hcl, hex, crq⟩, tmo, hcb, cbc, st, cra, coa, res, err⟩ := t
  cases st <;> cases coa <;>
    simp_all [recWFmid, isTerminal, isActive]

theorem recWF_processRecord (t : AsyncIOTask) (now : Nat) (hn : now ≠ 0)
    (h : recWFmid t = true) : recWF (processRecord now t) = true := by
  by_cases hda : t.handle.hdone = true ∧ isActive t.status = true
  · rw [processRecord_fire now t hda.1 hda.2]
    have hterm := finalizeRecord_status_terminal now t
    have hhd := finalizeRecord_handle now t
    have hco := finalizeRecord_completed now t
    have hact : isActive (finalizeRecord now t).status = false := by
      cases hst : (finalizeRecord now t).status <;>
        simp_all [isTerminal, isActive]
    have hcomp : (finalizeRecord now t).completed_at.isSome = true ∧
        (finalizeRecord now t).completed_at ≠ some 0 := by
      rw [hco]
      by_cases ht : optTruthy t.completed_at = true
      · rw [if_pos ht]
        cases hcoa : t.completed_at with
        | none => rw [hcoa] at ht; simp [optTruthy] at ht
        | some n =>
            rw [hcoa] at ht
            simp only [optTruthy, decide_eq_true_eq] at ht
            simp [ht]
      · rw [if_neg ht]
        simp [hn]
    split_ifs with hcb
    · unfold recWF
      simp only [Bool.and_eq_true, Bool.or_eq_true, beq_iff_eq,
        Bool.not_eq_true', decide_eq_true_eq]
      refine ⟨⟨⟨?_, ?_⟩, ?_⟩, ?_⟩
      · simp only [hcomp.1, hterm]
      · simpa using hcomp.2
      · left; right; simp [hhd, hda.1]
      · left; simp [hact]
    · unfold recWF
      simp only [Bool.and_eq_true, Bool.or_eq_true, beq_iff_eq,
        Bool.not_eq_true', decide_eq_true_eq]
      refine ⟨⟨⟨?_, ?_⟩, ?_⟩, ?_⟩
      · simp only [hcomp.1, hterm]
      · simpa using hcomp.2
      · left; right; simp [hhd, hda.1]
      · left; simp [hact]
  · have hskip : processRecord now t = t := by
      apply processRecord_skip
      rcases Decidable.not_and_iff_or_not.mp hda with h1 | h1
      · left; simpa using h1
      · right; simpa using h1
    rw [hskip]
    obtain ⟨tid, ⟨hdb, hcl, hex, crq⟩, tmo, hcb, cbc, st, cra, coa, res, err⟩ := t
    simp only at hda
    cases st <;> cases coa <;> cases hdb <;>
      simp_all [recWF, recWFmid, isTerminal, isActive]

/-! Manager-level invariant preservation. -/

theorem recWF_of_WF (m : Manager) (id : Nat) (t : AsyncIOTask)
    (h : WF m = true) (hl : lookupT m.tasks id = some t) : recWF t = true := by
  have hm := lookupT_mem m.tasks id t hl
  exact List.all_eq_true.mp h (id, t) hm

theorem recWFmid_of_WFmid (m : Manager) (id : Nat) (t : AsyncIOTask)
    (h : WFmid m = true) (hl : lookupT m.tasks id = some t) :
    recWFmid t = true := by
  have hm := lookupT_mem m.tasks id t hl
  exact List.all_eq_true.mp h (id, t) hm

theorem WFmid_of_WF (m : Manager) (h : WF m = true) : WFmid m = true := by
  unfold WF at h
  unfold WFmid
  rw [List.all_eq_true] at h ⊢
  intro p hp
  exact recWFmid_of_recWF p.2 (h p hp)

theorem all_snd_filter (ts : List (Nat × AsyncIOTask))
    (q : Nat × AsyncIOTask → Bool) (P : AsyncIOTask → Bool)
    (h : ts.all (fun p => P p.2) = true) :
    (ts.filter q).all (fun p => P p.2) = true := by
  rw [List.all_eq_true] at h ⊢
  intro p hp
  exact h p (List.mem_of_mem_filter hp)

theorem WFmid_applyEvent (m : Manager) (ev : TickEvent)
    (hok : evTimeOK ev = true) (h : WFmid m = true) :
    WFmid (applyEvent m ev) = true := by
  cases ev with
  | start id =>
      simp only [applyEvent]
      cases hl : lookupT m.tasks id with
      | none => exact h
      | some t =>
          dsimp only
          by_cases hcnd : (!t.handle.hdone && !t.handle.cancelRequested) = true
          · rw [if_pos hcnd]
            simp only [Bool.and_eq_true, Bool.not_eq_true'] at hcnd
            exact all_snd_dictSet _ _ _ _ h
              (recWFmid_startRecord t (recWFmid_of_WFmid m id t h hl)
                hcnd.1 hcnd.2)
          · rw [if_neg hcnd]
            exact h
  | finish id o tm =>
      simp only [evTimeOK, decide_eq_true_eq] at hok
      simp only [applyEvent]
      cases hl : lookupT m.tasks id with
      | none => exact h
      | some t =>
          exact all_snd_dictSet _ _ _ _ h (recWFmid_finishRecord t o tm hok)
  | cancelDone id =>
      simp only [applyEvent]
      cases hl : lookupT m.tasks id with
      | none => exact h
      | some t =>
          exact all_snd_dictSet _ _ _ _ h
            (recWFmid_cancelDoneRecord t (recWFmid_of_WFmid m id t h hl))
  | timer id tm =>
      simp only [evTimeOK, decide_eq_true_eq] at hok
      simp only [applyEvent]
      unfold checkTimeout
      cases hl : lookupT m.tasks id with
      | none => exact h
      | some t =>
          dsimp only
          by_cases ha : isActive t.status = true
          · rw [if_pos ha]
            exact all_snd_dictSet _ _ _ _ h (recWFmid_timeoutRecord t tm hok)
          · rw [if_neg ha]
            exact h

theorem WFmid_tick (m : Manager) (evs : List TickEvent)
    (hok : evs.all evTimeOK = true) (h : WFmid m = true) :
    WFmid (tick m evs) = true := by
  induction evs generalizing m with
  | nil => exact h
  | cons e es ih =>
      simp only [List.all_cons, Bool.and_eq_true] at hok
      exact ih (applyEvent m e) hok.2 (WFmid_applyEvent m e hok.1 h)

theorem WF_scan (m : Manager) (now : Nat) (hn : now ≠ 0)
    (h : WFmid m = true) : WF (scan m now) = true := by
  unfold WFmid at h
  unfold WF scan
  simp only [List.all_map]
  rw [List.all_eq_true] at h ⊢
  intro p hp
  exact recWF_processRecord p.2 now hn (h p hp)

theorem WF_cleanup (m : Manager) (now : Nat) (ma : Option Nat)
    (h : WF m = true) : WF (cleanup_tasks m now ma) = true := by
  unfold WF cleanup_tasks at *
  exact all_snd_filter _ _ _ h

theorem WF_Update (m : Manager) (evs : List TickEvent) (now : Nat)
    (hn : now ≠ 0) (hok : evs.all evTimeOK = true) (h : WF m = true) :
    WF (Update m evs now) = true := by
  unfold Update
  dsimp only
  have h1 : WFmid { m with frame := m.frame + 1 } = true := WFmid_of_WF _ h
  have h2 := WFmid_tick _ evs hok h1
  have h3 := WF_scan _ now hn h2
  split_ifs
  · exact WF_cleanup _ now Option.none h3
  · exact h3

theorem WF_CancelTask (m : Manager) (id now : Nat) (hn : now ≠ 0)
    (h : WF m = true) : WF (CancelTask m id now).1 = true := by
  unfold CancelTask
  cases hl : lookupT m.tasks id with
  | none => exact h
  | some t =>
      dsimp only
      by_cases hd : (!t.handle.hdone) = true
      · rw [if_pos hd]
        exact all_snd_dictSet _ _ _ _ h (recWF_cancelRecord t now hn)
      · rw [if_neg hd]
        exact h

theorem WF_checkTimeout (m : Manager) (id now : Nat) (hn : now ≠ 0)
    (h : WF m = true) : WF (checkTimeout m id now) = true := by
  unfold checkTimeout
  cases hl : lookupT m.tasks id with
  | none => exact h
  | some t =>
      dsimp only
      by_cases ha : isActive t.status = true
      · rw [if_pos ha]
        exact all_snd_dictSet _ _ _ _ h (recWF_timeoutRecord t now hn)
      · rw [if_neg ha]
        exact h

theorem WF_cancelFold (ids : List Nat) (m : Manager) (now : Nat)
    (hn : now ≠ 0) (h : WF m = true) :
    WF (ids.foldl (fun acc id => cancelStep acc now id) m) = true := by
  induction ids generalizing m with
  | nil => exact h
  | cons a as ih =>
      simp only [List.foldl_cons]
      apply ih
      unfold cancelStep
      cases hl : lookupT m.tasks a with
      | none => exact h
      | some t =>
          dsimp only
          by_cases ha : isActive t.status = true
          · rw [if_pos ha]
            exact WF_CancelTask m a now hn h
          · rw [if_neg ha]
            exact h

theorem WF_Cancelactive (m : Manager) (now : Nat) (hn : now ≠ 0)
    (h : WF m = true) : WF (Cancelactive m now) = true :=
  WF_cancelFold _ m now hn h

theorem WF_Clearall (m : Manager) (now : Nat) : WF (Clearall m now) = true := by
  unfold Clearall WF
  rfl

theorem WF_Clearfinished (m : Manager) (h : WF m = true) :
    WF (Clearfinished m) = true := by
  unfold WF Clearfinished at *
  exact all_snd_filter _ _ _ h

theorem WF_runLoop (n : Nat) (m : Manager) (now : Nat) (tmo : Option Nat)
    (cb : Bool) (h : WF m = true) : WF (runLoop m n now tmo cb).1 = true := by
  induction n generalizing m with
  | zero => exact h
  | succ k ih =>
      unfold runLoop
      apply ih
      exact all_snd_dictSet _ _ _ _ h (recWF_mkTask _ now tmo cb)

theorem WF_Run (m : Manager) (arg : RunArg) (now : Nat) (tmo : Option Nat)
    (cb : Bool) (m' : Manager) (r : Option Nat)
    (hr : Run m arg now tmo cb = Except.ok (m', r)) (h : WF m = true) :
    WF m' = true := by
  unfold Run at hr
  cases hv : coroutinesToRun arg with
  | error e => rw [hv] at hr; cases hr
  | ok n =>
      rw [hv] at hr
      simp only [Except.ok.injEq, Prod.mk.injEq] at hr
      rw [← hr.1]
      exact WF_runLoop n m now tmo cb h

/-! Characterization of the operations through registry lookups. -/

theorem lookupT_scan (m : Manager) (now : Nat) (id : Nat) :
    lookupT (scan m now).tasks id = (lookupT m.tasks id).map (processRecord now) := by
  unfold scan
  exact lookupT_map_f m.tasks id (processRecord now)

theorem Update_nil (m : Manager) (now : Nat)
    (hf : (m.frame + 1) % 100 ≠ 0) :
    Update m [] now = scan { m with frame := m.frame + 1 } now := by
  unfold Update tick
  dsimp only [List.foldl_nil]
  have hc : ¬ (scan { m with frame := m.frame + 1 } now).frame % 100 = 0 := hf
  rw [if_neg hc]

theorem CancelTask_lookup (m : Manager) (id now j : Nat) :
    lookupT (CancelTask m id now).1.tasks j =
      (if j = id then
        (lookupT m.tasks id).map (fun t =>
          if t.handle.hdone then t else cancelRecord t now)
       else lookupT m.tasks j) := by
  unfold CancelTask
  cases hl : lookupT m.tasks id with
  | none =>
      dsimp only
      by_cases hj : j = id
      · subst hj; simp [hl]
      · simp [hj]
  | some t =>
      dsimp only
      by_cases hd : (!t.handle.hdone) = true
      · rw [if_pos hd]
        simp only [Bool.not_eq_true'] at hd
        by_cases hj : j = id
        · subst hj
          simp [lookupT_dictSet_self, hl, hd]
        · simp [lookupT_dictSet_ne _ _ _ _ hj, hj]
      · rw [if_neg hd]
        simp only [Bool.not_eq_true', Bool.not_eq_false] at hd
        by_cases hj : j = id
        · subst hj; simp [hl, hd]
        · simp [hj]

theorem checkTimeout_lookup (m : Manager) (id now j : Nat) :
    lookupT (checkTimeout m id now).tasks j =
      (if j = id then
        (lookupT m.tasks id).map (fun t =>
          if isActive t.status then timeoutRecord t now else t)
       else lookupT m.tasks j) := by
  unfold checkTimeout
  cases hl : lookupT m.tasks id with
  | none =>
      dsimp only
      by_cases hj : j = id
      · subst hj; simp [hl]
      · simp [hj]
  | some t =>
      dsimp only
      by_cases ha : isActive t.status = true
      · rw [if_pos ha]
        by_cases hj : j = id
        · subst hj
          simp [lookupT_dictSet_self, hl, ha]
        · simp [lookupT_dictSet_ne _ _ _ _ hj, hj]
      · rw [if_neg ha]
        by_cases hj : j = id
        · subst hj
          simp [hl, ha]
        · simp [hj]

theorem cancelPoint_idem (now : Nat) (t : AsyncIOTask) :
    cancelPoint now (cancelPoint now t) = cancelPoint now t := by
  by_cases h : (isActive t.status && !t.handle.hdone) = true
  · have h1 : cancelPoint now t = cancelRecord t now := by
      unfold cancelPoint
      rw [if_pos h]
    rw [h1]
    have hc : ¬ ((isActive (cancelRecord t now).status &&
        !(cancelRecord t now).handle.hdone) = true) := by
      have hs : (cancelRecord t now).status = TaskStatus.cancelled := rfl
      simp [hs, isActive]
    unfold cancelPoint
    rw [if_neg hc]
  · have h1 : cancelPoint now t = t := by
      unfold cancelPoint
      rw [if_neg h]
    rw [h1]
    exact h1

theorem cancelStep_lookup (m : Manager) (now a j : Nat) :
    lookupT (cancelStep m now a).tasks j =
      (if j = a then (lookupT m.tasks a).map (cancelPoint now)
       else lookupT m.tasks j) := by
  unfold cancelStep
  cases hl : lookupT m.tasks a with
  | none =>
      dsimp only
      by_cases hj : j = a
      · subst hj; simp [hl]
      · simp [hj]
  | some t =>
      dsimp only
      by_cases ha : isActive t.status = true
      · rw [if_pos ha]
        rw [CancelTask_lookup]
        by_cases hj : j = a
        · subst hj
          simp only [if_pos rfl, hl, Option.map_some]
          unfold cancelPoint
          cases hd : t.handle.hdone <;> simp [hd, ha]
        · simp [hj]
      · rw [if_neg ha]
        by_cases hj : j = a
        · subst hj
          simp [hl, cancelPoint, ha]
        · simp [hj]

theorem cancelFold_lookup (ids : List Nat) (m : Manager) (now j : Nat) :
    lookupT (ids.foldl (fun acc id => cancelStep acc now id) m).tasks j =
      (if j ∈ ids then (lookupT m.tasks j).map (cancelPoint now)
       else lookupT m.tasks j) := by
  induction ids generalizing m with
  | nil => simp
  | cons a as ih =>
      simp only [List.foldl_cons]
      rw [ih]
      by_cases hj : j ∈ as
      · rw [if_pos hj, if_pos (List.mem_cons_of_mem a hj)]
        rw [cancelStep_lookup]
        by_cases hja : j = a
        · subst hja
          rw [if_pos rfl]
          cases hl : lookupT m.tasks j <;> simp [cancelPoint_idem]
        · rw [if_neg hja]
      · by_cases hja : j = a
        · subst hja
          rw [if_neg hj, if_pos (List.mem_cons_self j as)]
          rw [cancelStep_lookup, if_pos rfl]
        · rw [if_neg hj]
          have : j ∉ a :: as := by
            intro hc
            rcases List.mem_cons.mp hc with hc | hc
            · exact hja hc
            · exact hj hc
          rw [if_neg this]
          rw [cancelStep_lookup, if_neg hja]

theorem Cancelactive_lookup (m : Manager) (now j : Nat) :
    lookupT (Cancelactive m now).tasks j =
      (lookupT m.tasks j).map (cancelPoint now) := by
  unfold Cancelactive
  rw [cancelFold_lookup]
  by_cases hj : j ∈ m.tasks.map Prod.fst
  · rw [if_pos hj]
  · rw [if_neg hj]
    rw [lookupT_none_of_not_mem_keys _ _ hj]
    rfl

theorem keys_cancelStep (m : Manager) (now a : Nat) :
    (cancelStep m now a).tasks.map Prod.fst = m.tasks.map Prod.fst := by
  unfold cancelStep CancelTask
  cases hl : lookupT m.tasks a with
  | none => rfl
  | some t =>
      dsimp only
      by_cases ha : isActive t.status = true
      · rw [if_pos ha]
        by_cases hd : (!t.handle.hdone) = true
        · rw [if_pos hd]
          exact keys_dictSet _ _ _ (any_key_of_lookupT _ _ _ hl)
        · rw [if_neg hd]
      · rw [if_neg ha]

theorem keys_cancelFold (ids : List Nat) (m : Manager) (now : Nat) :
    (ids.foldl (fun acc id => cancelStep acc now id) m).tasks.map Prod.fst =
      m.tasks.map Prod.fst := by
  induction ids generalizing m with
  | nil => rfl
  | cons a as ih =>
      simp only [List.foldl_cons]
      rw [ih, keys_cancelStep]

theorem keys_Cancelactive (m : Manager) (now : Nat) :
    (Cancelactive m now).tasks.map Prod.fst = m.tasks.map Prod.fst :=
  keys_cancelFold _ m now

/-! Lemmas about the submission loop. -/

theorem runLoop_counter (n : Nat) (m : Manager) (now : Nat) (tmo : Option Nat)
    (cb : Bool) :
    (runLoop m n now tmo cb).1.task_counter = m.task_counter + n := by
  induction n generalizing m with
  | zero => rfl
  | succ k ih =>
      unfold runLoop
      dsimp only
      rw [ih]
      dsimp only
      omega

theorem runLoop_ids (n : Nat) (m : Manager) (now : Nat) (tmo : Option Nat)
    (cb : Bool) :
    (runLoop m n now tmo cb).2 =
      (List.range n).map (fun i => m.task_counter + i) := by
  induction n generalizing m with
  | zero => rfl
  | succ k ih =>
      unfold runLoop
      dsimp only
      rw [ih]
      dsimp only
      rw [List.range_succ_eq_map]
      simp only [List.map_cons, List.map_map, Nat.add_zero]
      congr 1
      apply List.map_congr_left
      intro i _
      simp only [Function.comp_apply]
      omega

theorem runLoop_lookup_lt (n : Nat) (m : Manager) (now : Nat) (tmo : Option Nat)
    (cb : Bool) (j : Nat) (hj : j < m.task_counter) :
    lookupT (runLoop m n now tmo cb).1.tasks j = lookupT m.tasks j := by
  induction n generalizing m with
  | zero => rfl
  | succ k ih =>
      unfold runLoop
      dsimp only
      rw [ih _ (by dsimp only; omega)]
      dsimp only
      exact lookupT_dictSet_ne _ _ _ _ (by omega)

theorem runLoop_lookup_new (n : Nat) (m : Manager) (now : Nat)
    (tmo : Option Nat) (cb : Bool) (i : Nat) (hi : i < n) :
    lookupT (runLoop m n now tmo cb).1.tasks (m.task_counter + i) =
      some (mkTask (m.task_counter + i) now tmo cb) := by
  induction n generalizing m i with
  | zero => omega
  | succ k ih =>
      unfold runLoop
      dsimp only
      cases i with
      | zero =>
          rw [runLoop_lookup_lt k _ now tmo cb _ (by dsimp only; omega)]
          dsimp only
          simpa using lookupT_dictSet_self m.tasks m.task_counter _
      | succ i' =>
          have h := ih { m with tasks := dictSet m.tasks m.task_counter (mkTask m.task_counter now tmo cb), task_counter := m.task_counter + 1 } i' (by omega)
          dsimp only at h
          have harith : m.task_counter + 1 + i' = m.task_counter + (i' + 1) := by
            omega
          rw [harith] at h
          exact h

theorem lookup_ge_counter_none (m : Manager) (h : keysBound m = true)
    (j : Nat) (hj : m.task_counter ≤ j) : lookupT m.tasks j = Option.none := by
  cases hl : lookupT m.tasks j with
  | none => rfl
  | some t =>
      have hmem := lookupT_mem m.tasks j t hl
      have := List.all_eq_true.mp h (j, t) hmem
      simp only [decide_eq_true_eq] at this
      omega

theorem range_map_getLast (c n : Nat) (hn : 0 < n) :
    ((List.range n).map (fun i => c + i)).getLast? = some (c + (n - 1)) := by
  cases n with
  | zero => omega
  | succ k =>
      rw [List.range_succ, List.map_append]
      simp

/-! Small facts used by the claim theorems. -/

theorem isTerminal_false_of_isActive (s : TaskStatus) (ha : isActive s = true) :
    isTerminal s = false := by
  cases s <;> first
    | rfl
    | (exact absurd ha (by decide))

theorem isActive_false_of_isTerminal (s : TaskStatus) (ht : isTerminal s = true) :
    isActive s = false := by
  cases s <;> first
    | rfl
    | (exact absurd ht (by decide))

theorem recWF_iff_completed (t : AsyncIOTask) (h : recWF t = true) :
    t.completed_at.isSome = true ↔ isTerminal t.status = true := by
  unfold recWF at h
  simp only [Bool.and_eq_true, beq_iff_eq] at h
  rw [h.1.1.1]

theorem recWF_truthy (t : AsyncIOTask) (h : recWF t = true) :
    optTruthy t.completed_at = isTerminal t.status := by
  unfold recWF at h
  simp only [Bool.and_eq_true, beq_iff_eq, decide_eq_true_eq] at h
  have h1 := h.1.1.1
  have h2 := h.1.1.2
  cases hco : t.completed_at with
  | none =>
      rw [hco] at h1
      simp only [Option.isSome_none] at h1
      simp [optTruthy, ← h1]
  | some n =>
      rw [hco] at h1 h2
      simp only [Option.isSome_some] at h1
      have hn : n ≠ 0 := by
        intro hc
        exact h2 (by rw [hc])
      simp [optTruthy, hn, ← h1]

theorem recWF_active_not_done (t : AsyncIOTask) (h : recWF t = true)
    (ha : isActive t.status = true) : t.handle.hdone = false := by
  unfold recWF at h
  simp only [Bool.and_eq_true, Bool.or_eq_true, Bool.not_eq_true'] at h
  rcases h.2 with h2 | h2
  · rw [ha] at h2
    cases h2
  · exact h2

theorem timeoutRecord_status (t : AsyncIOTask) (now : Nat) :
    (timeoutRecord t now).status = TaskStatus.timeout := by
  unfold timeoutRecord
  dsimp only
  all_goals first
  | rfl
  | (split_ifs <;> rfl)

theorem timeoutRecord_error (t : AsyncIOTask) (now : Nat) :
    (timeoutRecord t now).error = PyVal.str (timeoutMessage t.timeout) := by
  unfold timeoutRecord
  dsimp only
  all_goals first
  | rfl
  | (split_ifs <;> rfl)

theorem timeoutRecord_completed (t : AsyncIOTask) (now : Nat) :
    (timeoutRecord t now).completed_at = some now := by
  unfold timeoutRecord
  dsimp only

theorem timeoutRecord_count (t : AsyncIOTask) (now : Nat) :
    (timeoutRecord t now).callbackCount = t.callbackCount := by
  unfold timeoutRecord
  dsimp only
  all_goals first
  | rfl
  | (split_ifs <;> rfl)

theorem timeoutRecord_cancels (t : AsyncIOTask) (now : Nat)
    (hd : t.handle.hdone = false) :
    (timeoutRecord t now).handle.cancelRequested = true := by
  unfold timeoutRecord
  dsimp only
  rw [if_pos (by simp [hd])]

theorem timeoutRecord_handle_done (t : AsyncIOTask) (now : Nat)
    (hd : t.handle.hdone = true) : (timeoutRecord t now).handle = t.handle := by
  unfold timeoutRecord
  dsimp only
  rw [if_neg (by simp [hd])]

theorem processRecord_fire_fields (now : Nat) (t : AsyncIOTask)
    (hd : t.handle.hdone = true) (ha : isActive t.status = true) :
    (processRecord now t).status = (finalizeRecord now t).status ∧
    (processRecord now t).error = (finalizeRecord now t).error ∧
    (processRecord now t).result = (finalizeRecord now t).result ∧
    (processRecord now t).completed_at = (finalizeRecord now t).completed_at := by
  rw [processRecord_fire now t hd ha]
  split_ifs <;> exact ⟨rfl, rfl, rfl, rfl⟩

theorem processRecord_fire_count (now : Nat) (t : AsyncIOTask)
    (hd : t.handle.hdone = true) (ha : isActive t.status = true) :
    (processRecord now t).callbackCount =
      (if t.hasCb then t.callbackCount + 1 else t.callbackCount) := by
  rw [processRecord_fire now t hd ha]
  rw [finalizeRecord_hasCb]
  split_ifs with h
  · simp [finalizeRecord_count]
  · simp [finalizeRecord_count]

theorem processRecord_fire_terminal (now : Nat) (t : AsyncIOTask)
    (hd : t.handle.hdone = true) (ha : isActive t.status = true) :
    isTerminal (processRecord now t).status = true := by
  rw [(processRecord_fire_fields now t hd ha).1]
  exact finalizeRecord_status_terminal now t

theorem finalizeRecord_fields (now : Nat) (t : AsyncIOTask) :
    (finalizeRecord now t).status = (classifyRecord t).status ∧
    (finalizeRecord now t).error = (classifyRecord t).error ∧
    (finalizeRecord now t).result = (classifyRecord t).result := by
  rw [finalizeRecord_classify]
  split_ifs <;> exact ⟨rfl, rfl, rfl⟩

theorem classify_case_cancelled (t : AsyncIOTask)
    (hc : t.handle.hcancelled = true) :
    (classifyRecord t).status = TaskStatus.cancelled ∧
    (classifyRecord t).error = t.error ∧
    (classifyRecord t).result = t.result := by
  unfold classifyRecord
  rw [if_pos hc]
  exact ⟨rfl, rfl, rfl⟩

theorem classify_case_exc (t : AsyncIOTask) (e : String) (r : PyVal)
    (hc : t.handle.hcancelled = false)
    (hex : t.handle.excRes = ExcRes.val (some e) r) :
    (classifyRecord t).status = TaskStatus.failed ∧
    (classifyRecord t).error = (if t.error.truthy then t.error else PyVal.str e) ∧
    (classifyRecord t).result = t.result := by
  unfold classifyRecord
  simp only [hc, Bool.false_eq_true, if_false, hex]
  split_ifs <;> exact ⟨rfl, rfl, rfl⟩

theorem classify_case_ok (t : AsyncIOTask) (r : PyVal)
    (hc : t.handle.hcancelled = false)
    (hex : t.handle.excRes = ExcRes.val Option.none r) :
    (classifyRecord t).status = TaskStatus.completed ∧
    (classifyRecord t).error = t.error ∧
    (classifyRecord t).result = (if t.result.isNone then r else t.result) := by
  unfold classifyRecord
  simp only [hc, Bool.false_eq_true, if_false, hex]
  split_ifs <;> exact ⟨rfl, rfl, rfl⟩

theorem classify_case_raiseCI (t : AsyncIOTask) (s : String)
    (hc : t.handle.hcancelled = false)
    (hex : t.handle.excRes = ExcRes.raiseCancelledOrInvalid s) :
    (classifyRecord t).status = TaskStatus.cancelled ∧
    (classifyRecord t).error = t.error ∧
    (classifyRecord t).result = t.result := by
  unfold classifyRecord
  simp only [hc, Bool.false_eq_true, if_false, hex]
  split_ifs with h
  · exact ⟨h, rfl, rfl⟩
  · exact ⟨rfl, rfl, rfl⟩

theorem classify_case_raiseOther (t : AsyncIOTask) (s : String)
    (hc : t.handle.hcancelled = false)
    (hex : t.handle.excRes = ExcRes.raiseOther s) :
    (classifyRecord t).status = TaskStatus.failed ∧
    (classifyRecord t).error =
      (if t.error.truthy then t.error
       else PyVal.str ("Error during task finalization: " ++ s)) ∧
    (classifyRecord t).result = t.result := by
  unfold classifyRecord
  simp only [hc, Bool.false_eq_true, if_false, hex]
  split_ifs <;> exact ⟨rfl, rfl, rfl⟩

theorem isSome_of_optTruthy (o : Option Nat) (h : optTruthy o = true) :
    o.isSome = true := by
  cases o with
  | none => simp [optTruthy] at h
  | some n => rfl

/-! Claim theorems. -/

/-- Claim C10: GetTaskResult returns the stored result exactly when the
record exists and its status is Completed; for an unknown id and for a
record in any other status it returns None; consequently a Completed
task whose unit of work produced None is indistinguishable through
GetTaskResult from a task with no result at all. -/
theorem claim_C10 (m : Manager) (id : Nat) :
    (lookupT m.tasks id = Option.none → GetTaskResult m id = PyVal.none) ∧
    (∀ t, lookupT m.tasks id = some t → t.status = TaskStatus.completed →
      GetTaskResult m id = t.result) ∧
    (∀ t, lookupT m.tasks id = some t → t.status ≠ TaskStatus.completed →
      GetTaskResult m id = PyVal.none) ∧
    (∀ t, lookupT m.tasks id = some t → t.status = TaskStatus.completed →
      t.result = PyVal.none → GetTaskResult m id = PyVal.none) := by
  refine ⟨?_, ?_, ?_, ?_⟩
  · intro h
    unfold GetTaskResult
    rw [h]
  · intro t hl hs
    unfold GetTaskResult
    rw [hl]
    dsimp only
    rw [if_pos hs]
  · intro t hl hs
    unfold GetTaskResult
    rw [hl]
    dsimp only
    rw [if_neg hs]
  · intro t hl hs hr
    unfold GetTaskResult
    rw [hl]
    dsimp only
    rw [if_pos hs, hr]

/-- Witness for C10 at a concrete one-record manager whose task is
Completed with result "v". -/
theorem claim_C10_witness : GetTaskResult wTermM 0 = PyVal.str "v" := by
  have h := (claim_C10 wTermM 0).2.1 wTermTask rfl rfl
  rw [h]
  rfl

/-- Claim C7: an argument to Run that is neither a coroutine object nor
a list or tuple of coroutine objects makes Run fail with a TypeError;
the validation precedes the submission loop in the source, so a failing
Run returns no new manager state: no record is inserted, no id is
consumed and nothing is scheduled. -/
theorem claim_C7 (m : Manager) (now : Nat) (tmo : Option Nat) (cb : Bool) :
    (Run m RunArg.other now tmo cb =
      Except.error "Input must be a coroutine or an iterable of coroutines.") ∧
    (∀ items : List RunItem, items.all (fun i => i = RunItem.coro) = false →
      Run m (RunArg.coll items) now tmo cb =
        Except.error "Iterable must contain only coroutine objects.") := by
  constructor
  · rfl
  · intro items hbad
    have h1 : (items.length = 1 &&
        (items.head? = some RunItem.coro : Bool)) = false := by
      cases items with
      | nil => rfl
      | cons a as =>
          cases a with
          | coro =>
              cases as with
              | nil => simp at hbad
              | cons b bs => simp
          | notCoro => simp
    have hv : coroutinesToRun (RunArg.coll items) =
        Except.error "Iterable must contain only coroutine objects." := by
      simp only [coroutinesToRun]
      rw [if_neg (by rw [h1]; exact Bool.false_ne_true)]
      rw [if_neg (by rw [hbad]; exact Bool.false_ne_true)]
    unfold Run
    rw [hv]

/-- Witness for C7 on a one-element list holding a non-coroutine. -/
theorem claim_C7_witness :
    Run initM (RunArg.coll [RunItem.notCoro]) 1 Option.none false =
      Except.error "Iterable must contain only coroutine objects." :=
  (claim_C7 initM 1 Option.none false).2 [RunItem.notCoro] rfl

/-- Counterexample to claim C9 as stated: a task submitted and
user-cancelled at clock time 10 is terminal (Cancelled, completed_at
10), yet an eviction sweep with max_age 0 performed at the same clock
time 10 does not evict it, because the sweep removes only records whose
age is strictly greater than max_age. -/
theorem claim_C9_cex :
    statusAt c9s1 0 = some TaskStatus.cancelled ∧
    isTerminal TaskStatus.cancelled = true ∧
    statusAt c9s2 0 = some TaskStatus.cancelled := by
  exact ⟨rfl, rfl, rfl⟩

/-- Claim C9 (amended): cleanup_tasks removes exactly those records
that are terminal and whose completed_at is strictly more than max_age
seconds in the past, and never removes a Pending or Running record
regardless of age; with max_age 0 it evicts exactly the terminal
records whose completed_at is strictly earlier than the current time,
so a record that completed at the current clock reading survives. -/
theorem claim_C9 (m : Manager) (now ma : Nat)
    (hnd : (m.tasks.map Prod.fst).Nodup) (hwf : WF m = true) :
    (∀ id t, lookupT m.tasks id = some t →
      lookupT (cleanup_tasks m now (some ma)).tasks id =
        (if isTerminal t.status = true ∧ now - t.completed_at.getD 0 > ma
         then Option.none else some t)) ∧
    (∀ id t, lookupT m.tasks id = some t → isActive t.status = true →
      lookupT (cleanup_tasks m now (some ma)).tasks id = some t) := by
  have hmain : ∀ id t, lookupT m.tasks id = some t →
      lookupT (cleanup_tasks m now (some ma)).tasks id =
        (if isTerminal t.status = true ∧ now - t.completed_at.getD 0 > ma
         then Option.none else some t) := by
    intro id t hl
    unfold cleanup_tasks
    dsimp only
    rw [lookupT_filter _ _ _ hnd]
    rw [hl]
    have htr := recWF_truthy t (recWF_of_WF m id t hwf hl)
    by_cases hterm : isTerminal t.status = true
    · have htr' : optTruthy t.completed_at = true := by rw [htr, hterm]
      by_cases hage : now - t.completed_at.getD 0 > ma
      · rw [if_pos ⟨hterm, hage⟩]
        dsimp only
        rw [if_neg]
        simp [hterm, htr', hage]
      · rw [if_neg (fun hc => hage hc.2)]
        dsimp only
        rw [if_pos]
        simp [hage]
    · have hterm' : isTerminal t.status = false := by
        rw [Bool.not_eq_true] at hterm
        exact hterm
      rw [if_neg (fun hc => hterm hc.1)]
      dsimp only
      rw [if_pos]
      simp [hterm']
  refine ⟨hmain, ?_⟩
  intro id t hl ha
  rw [hmain id t hl]
  rw [if_neg]
  intro hc
  have hx := hc.1
  rw [isTerminal_false_of_isActive t.status ha] at hx
  cases hx

/-- Witness for C9: in a two-record manager (record 0 Cancelled at time
10, record 1 Pending), a sweep at time 20 with max_age 5 evicts record
0 and keeps the Pending record 1. -/
theorem claim_C9_witness :
    lookupT (cleanup_tasks w9m 20 (some 5)).tasks 0 = Option.none ∧
    lookupT (cleanup_tasks w9m 20 (some 5)).tasks 1 =
      some (mkTask 1 5 Option.none false) := by
  have h := claim_C9 w9m 20 5 (by decide) (by decide)
  constructor
  · have h0 := h.1 0 (cancelRecord (mkTask 0 5 Option.none false) 10) (by decide)
    rw [h0]
    rfl
  · exact h.2 1 (mkTask 1 5 Option.none false) (by decide) (by decide)

/-- Claim C8: the Update finalization scan is idempotent on terminal
records: a record already in a terminal state is left entirely
unchanged by the scan (status, error, result, callback count), its
completion callback is not invoked again, and a record just finalized
by one scan pass is a fixed point of a second pass. -/
theorem claim_C8 (m : Manager) (now : Nat) (id : Nat) (t : AsyncIOTask)
    (hl : lookupT m.tasks id = some t) (hterm : isTerminal t.status = true) :
    lookupT (scan m now).tasks id = some t ∧
    processRecord now t = t ∧
    (∀ t' : AsyncIOTask, isActive t'.status = true → t'.handle.hdone = true →
      processRecord now (processRecord now t') = processRecord now t') := by
  refine ⟨?_, processRecord_terminal now t hterm, ?_⟩
  · rw [lookupT_scan, hl]
    simp [processRecord_terminal now t hterm]
  · intro t' ha hd
    exact processRecord_terminal now _ (processRecord_fire_terminal now t' hd ha)

/-- Witness for C8 on a concrete manager holding a Completed record. -/
theorem claim_C8_witness :
    lookupT (scan wTermM 5).tasks 0 = some wTermTask :=
  (claim_C8 wTermM 5 0 wTermTask rfl rfl).1

/-- Counterexample to claim C4 as stated: task 0, submitted with
timeout 10 at time 1, has its work reach its natural end at loop time 9
(the produced value "v" is captured), before the timeout callback fires
at loop time 10; but both happen inside the same Update tick, before
any scan classified the record, so the record is still Pending when the
timer fires and the task ends TimedOut, not Completed. -/
theorem claim_C4_cex :
    (lookupT c4s2.tasks 0).map (fun t => (t.status, t.result)) =
      some (TaskStatus.timeout, PyVal.str "v") ∧
    TaskStatus.timeout ≠ TaskStatus.completed := by
  exact ⟨rfl, by decide⟩

/-- Claim C4 (amended): when the timeout callback fires while the
record is still Pending/Running — even if the handle is already done —
the task is finalized TimedOut with error set to the timeout message
and completed_at set, and cancellation is requested on the handle
exactly when the handle is not yet done; when the record was already
finalized (for example Completed by a scan that ran before the timer
fired), the timeout callback changes nothing; and a record already
TimedOut is skipped by the scan, so no record is double-finalized. -/
theorem claim_C4 (m : Manager) (id now : Nat) (t : AsyncIOTask)
    (hl : lookupT m.tasks id = some t) :
    (isActive t.status = true →
      lookupT (checkTimeout m id now).tasks id = some (timeoutRecord t now) ∧
      (timeoutRecord t now).status = TaskStatus.timeout ∧
      (timeoutRecord t now).error = PyVal.str (timeoutMessage t.timeout) ∧
      (timeoutRecord t now).completed_at = some now ∧
      (t.handle.hdone = false →
        (timeoutRecord t now).handle.cancelRequested = true) ∧
      (t.handle.hdone = true → (timeoutRecord t now).handle = t.handle)) ∧
    (isTerminal t.status = true → checkTimeout m id now = m) ∧
    (t.status = TaskStatus.timeout → processRecord now t = t) := by
  refine ⟨?_, ?_, ?_⟩
  · intro ha
    refine ⟨?_, timeoutRecord_status t now, timeoutRecord_error t now,
      timeoutRecord_completed t now, timeoutRecord_cancels t now,
      timeoutRecord_handle_done t now⟩
    rw [checkTimeout_lookup, if_pos rfl, hl]
    simp only [Option.map_some']
    rw [if_pos ha]
  · intro hterm
    unfold checkTimeout
    rw [hl]
    dsimp only
    rw [if_neg]
    rw [isActive_false_of_isTerminal t.status hterm]
    exact Bool.false_ne_true
  · intro hti
    apply processRecord_terminal
    rw [hti]
    rfl

/-- Witness for C4: firing the timeout callback at time 12 on a
still-pending task with timeout 10 finalizes it as the expected
TimedOut record. -/
theorem claim_C4_witness :
    lookupT (checkTimeout c4s1 0 12).tasks 0 =
      some (timeoutRecord (mkTask 0 1 (some 10) false) 12) := by
  have h := (claim_C4 c4s1 0 12 (mkTask 0 1 (some 10) false) rfl).1 (by decide)
  exact h.1

/-- Claim C5: in a well-formed manager state (as maintained at every
public boundary: in particular no Pending/Running record has a done
handle, because the Update scan finalizes done handles within the same
call), Cancelactive cancels every Pending/Running record — it ends
Cancelled, with completed_at set and cancellation requested on its
handle — leaves every other record untouched, and removes no record
from the registry. -/
theorem claim_C5 (m : Manager) (now : Nat) (hwf : WF m = true) :
    ((Cancelactive m now).tasks.map Prod.fst = m.tasks.map Prod.fst) ∧
    (∀ id t, lookupT m.tasks id = some t → isActive t.status = true →
      lookupT (Cancelactive m now).tasks id = some (cancelRecord t now) ∧
      (cancelRecord t now).status = TaskStatus.cancelled ∧
      (cancelRecord t now).completed_at = some now ∧
      (cancelRecord t now).handle.cancelRequested = true) ∧
    (∀ id t, lookupT m.tasks id = some t → isActive t.status = false →
      lookupT (Cancelactive m now).tasks id = some t) := by
  refine ⟨keys_Cancelactive m now, ?_, ?_⟩
  · intro id t hl ha
    have hd : t.handle.hdone = false :=
      recWF_active_not_done t (recWF_of_WF m id t hwf hl) ha
    rw [Cancelactive_lookup, hl]
    simp only [Option.map_some']
    unfold cancelPoint
    rw [if_pos (by rw [ha, hd]; rfl)]
    exact ⟨rfl, rfl, rfl, rfl⟩
  · intro id t hl ha
    rw [Cancelactive_lookup, hl]
    simp only [Option.map_some']
    unfold cancelPoint
    rw [if_neg (by rw [ha]; simp)]

/-- Witness for C5 on a manager holding two pending records. -/
theorem claim_C5_witness :
    lookupT (Cancelactive w5m 9).tasks 0 =
      some (cancelRecord (mkTask 0 1 Option.none false) 9) :=
  ((claim_C5 w5m 9 (by decide)).2.1 0 (mkTask 0 1 Option.none false)
    rfl (by decide)).1

/-- Claim C6: Run returns the id of the submitted unit when exactly one
unit is submitted (passed alone or as a one-element collection), and
the id of the last submitted unit for a collection of two or more;
every unit receives its own fresh id — one not previously present in
the registry — and its record is individually retrievable. -/
theorem claim_C6 (m : Manager) (now : Nat) (tmo : Option Nat) (cb : Bool)
    (hkb : keysBound m = true) :
    (∀ m' r, Run m RunArg.single now tmo cb = Except.ok (m', r) →
      r = some m.task_counter ∧
      lookupT m'.tasks m.task_counter =
        some (mkTask m.task_counter now tmo cb) ∧
      lookupT m.tasks m.task_counter = Option.none) ∧
    (∀ m' r, Run m (RunArg.coll [RunItem.coro]) now tmo cb =
        Except.ok (m', r) →
      r = some m.task_counter ∧
      lookupT m'.tasks m.task_counter =
        some (mkTask m.task_counter now tmo cb)) ∧
    (∀ items : List RunItem, items.all (fun i => i = RunItem.coro) = true →
      2 ≤ items.length →
      ∀ m' r, Run m (RunArg.coll items) now tmo cb = Except.ok (m', r) →
        r = some (m.task_counter + (items.length - 1)) ∧
        (∀ i, i < items.length →
          lookupT m'.tasks (m.task_counter + i) =
            some (mkTask (m.task_counter + i) now tmo cb) ∧
          lookupT m.tasks (m.task_counter + i) = Option.none)) := by
  have hone : ∀ arg, coroutinesToRun arg = Except.ok 1 →
      ∀ m' r, Run m arg now tmo cb = Except.ok (m', r) →
      r = some m.task_counter ∧
      lookupT m'.tasks m.task_counter =
        some (mkTask m.task_counter now tmo cb) ∧
      lookupT m.tasks m.task_counter = Option.none := by
    intro arg hv m' r hr
    have hrs : Run m arg now tmo cb =
        Except.ok ((runLoop m 1 now tmo cb).1, some m.task_counter) := by
      unfold Run
      rw [hv]
      dsimp only
      rw [runLoop_ids]
      simp [List.range_succ]
    rw [hrs] at hr
    simp only [Except.ok.injEq, Prod.mk.injEq] at hr
    refine ⟨hr.2.symm, ?_, ?_⟩
    · rw [← hr.1]
      have h := runLoop_lookup_new 1 m now tmo cb 0 (by omega)
      rw [Nat.add_zero] at h
      exact h
    · exact lookup_ge_counter_none m hkb m.task_counter le_rfl
  refine ⟨hone RunArg.single rfl, ?_, ?_⟩
  · intro m' r hr
    have h := hone (RunArg.coll [RunItem.coro]) rfl m' r hr
    exact ⟨h.1, h.2.1⟩
  · intro items hall hlen m' r hr
    have hv : coroutinesToRun (RunArg.coll items) = Except.ok items.length := by
      simp only [coroutinesToRun]
      have hc1 : ¬ ((items.length = 1 &&
          (items.head? = some RunItem.coro : Bool)) = true) := by
        simp only [Bool.and_eq_true, decide_eq_true_eq]
        intro hc
        omega
      rw [if_neg hc1, if_pos hall]
    unfold Run at hr
    rw [hv] at hr
    dsimp only at hr
    rw [runLoop_ids] at hr
    rw [if_neg (by simp only [List.length_map, List.length_range]; omega)] at hr
    rw [range_map_getLast _ _ (by omega)] at hr
    simp only [Except.ok.injEq, Prod.mk.injEq] at hr
    refine ⟨hr.2.symm, ?_⟩
    intro i hi
    constructor
    · rw [← hr.1]
      exact runLoop_lookup_new items.length m now tmo cb i hi
    · exact lookup_ge_counter_none m hkb (m.task_counter + i) (by omega)

/-- Witness for C6: submitting a two-element batch to a fresh manager
returns the last id and both records are retrievable. -/
theorem claim_C6_witness :
    lookupT w5m.tasks 1 = some (mkTask 1 1 Option.none false) := by
  have h := (claim_C6 initM 1 Option.none false (by decide)).2.2
    [RunItem.coro, RunItem.coro] (by decide) (by decide) w5m (some 1) rfl
  exact (h.2 1 (by decide)).1

theorem cancelRecord_count (t : AsyncIOTask) (now : Nat) :
    (cancelRecord t now).callbackCount = t.callbackCount := rfl

/-- Claim C3: in an Update call, each registry record whose handle
reports done while its status is still Pending/Running is finalized
exactly as the source classifies it: Cancelled when the handle reports
cancelled; else Failed with the stringified exception captured into
error when error was not already set; else Completed with the produced
value captured into result when result was still None; when inspecting
the handle itself raises a CancelledError or InvalidStateError the
record is classified Cancelled, and on any other inspection exception
Failed with a finalization message when error was not already set; and
completed_at is set when it was still absent. (Stated for an Update
whose tick delivers no new events and which does not hit the periodic
sweep frame, isolating the scan.) -/
theorem claim_C3 (m : Manager) (id now : Nat) (t : AsyncIOTask)
    (hl : lookupT m.tasks id = some t)
    (hd : t.handle.hdone = true) (ha : isActive t.status = true)
    (hf : (m.frame + 1) % 100 ≠ 0) :
    ∃ t', lookupT (Update m [] now).tasks id = some t' ∧
      t'.completed_at =
        (if optTruthy t.completed_at then t.completed_at else some now) ∧
      isTerminal t'.status = true ∧
      (t.handle.hcancelled = true →
        t'.status = TaskStatus.cancelled ∧ t'.error = t.error ∧
        t'.result = t.result) ∧
      (∀ e r, t.handle.hcancelled = false →
        t.handle.excRes = ExcRes.val (some e) r →
        t'.status = TaskStatus.failed ∧
        t'.error = (if t.error.truthy then t.error else PyVal.str e) ∧
        t'.result = t.result) ∧
      (∀ r, t.handle.hcancelled = false →
        t.handle.excRes = ExcRes.val Option.none r →
        t'.status = TaskStatus.completed ∧
        t'.result = (if t.result.isNone then r else t.result) ∧
        t'.error = t.error) ∧
      (∀ s, t.handle.hcancelled = false →
        t.handle.excRes = ExcRes.raiseCancelledOrInvalid s →
        t'.status = TaskStatus.cancelled ∧ t'.error = t.error ∧
        t'.result = t.result) ∧
      (∀ s, t.handle.hcancelled = false →
        t.handle.excRes = ExcRes.raiseOther s →
        t'.status = TaskStatus.failed ∧
        t'.error = (if t.error.truthy then t.error
          else PyVal.str ("Error during task finalization: " ++ s)) ∧
        t'.result = t.result) := by
  have hfields := processRecord_fire_fields now t hd ha
  have hff := finalizeRecord_fields now t
  refine ⟨processRecord now t, ?_, ?_,
    processRecord_fire_terminal now t hd ha, ?_, ?_, ?_, ?_, ?_⟩
  · rw [Update_nil m now hf, lookupT_scan]
    have hl' : lookupT
        (Manager.mk m.tasks m.task_counter (m.frame + 1) m.clearafter).tasks
        id = some t := hl
    rw [hl']
    rfl
  · rw [hfields.2.2.2, finalizeRecord_completed]
  · intro hc
    have hcc := classify_case_cancelled t hc
    exact ⟨by rw [hfields.1, hff.1, hcc.1],
      by rw [hfields.2.1, hff.2.1, hcc.2.1],
      by rw [hfields.2.2.1, hff.2.2, hcc.2.2]⟩
  · intro e r hc hex
    have hcc := classify_case_exc t e r hc hex
    exact ⟨by rw [hfields.1, hff.1, hcc.1],
      by rw [hfields.2.1, hff.2.1, hcc.2.1],
      by rw [hfields.2.2.1, hff.2.2, hcc.2.2]⟩
  · intro r hc hex
    have hcc := classify_case_ok t r hc hex
    exact ⟨by rw [hfields.1, hff.1, hcc.1],
      by rw [hfields.2.2.1, hff.2.2, hcc.2.2],
      by rw [hfields.2.1, hff.2.1, hcc.2.1]⟩
  · intro s hc hex
    have hcc := classify_case_raiseCI t s hc hex
    exact ⟨by rw [hfields.1, hff.1, hcc.1],
      by rw [hfields.2.1, hff.2.1, hcc.2.1],
      by rw [hfields.2.2.1, hff.2.2, hcc.2.2]⟩
  · intro s hc hex
    have hcc := classify_case_raiseOther t s hc hex
    exact ⟨by rw [hfields.1, hff.1, hcc.1],
      by rw [hfields.2.1, hff.2.1, hcc.2.1],
      by rw [hfields.2.2.1, hff.2.2, hcc.2.2]⟩

/-- Witness for C3: the pending record of wDoneM, whose done handle
reports a successful value, is finalized Completed by an Update. -/
theorem claim_C3_witness :
    statusAt (Update wDoneM [] 5) 0 = some TaskStatus.completed := by
  obtain ⟨t', hl', hco, hterm, hcanc, hexc, hok, hci, hother⟩ :=
    claim_C3 wDoneM 0 5 wDoneTask rfl rfl rfl (by decide)
  have h := hok (PyVal.str "ok") rfl rfl
  unfold statusAt
  rw [hl']
  simp only [Option.map_some']
  rw [h.1]

/-- Claim C2: at every public boundary, completed_at is set exactly
when the status is terminal; the property is observable through
GetTaskInfo (and hence GetAllTasksInfo, which maps it over all ids) and
is preserved by every operation of the manager: Run, CancelTask, the
timeout callback, Update with arbitrary tick events, cleanup_tasks,
Cancelactive, Clearall and Clearfinished. Clock and event timestamps
are nonzero, as Python wall-clock readings always are. -/
theorem claim_C2 (m : Manager) (now : Nat) (evs : List TickEvent)
    (arg : RunArg) (tmo : Option Nat) (cb : Bool) (id : Nat) (ma : Option Nat)
    (hn : now ≠ 0) (hok : evs.all evTimeOK = true) (hwf : WF m = true) :
    (∀ t, lookupT m.tasks id = some t →
      (t.completed_at.isSome = true ↔ isTerminal t.status = true)) ∧
    (∀ v, GetTaskInfo m id = some v →
      (v.completed_at.isSome = true ↔ isTerminal v.status = true)) ∧
    (∀ m' r, Run m arg now tmo cb = Except.ok (m', r) → WF m' = true) ∧
    WF (CancelTask m id now).1 = true ∧
    WF (checkTimeout m id now) = true ∧
    WF (Update m evs now) = true ∧
    WF (cleanup_tasks m now ma) = true ∧
    WF (Cancelactive m now) = true ∧
    WF (Clearall m now) = true ∧
    WF (Clearfinished m) = true := by
  refine ⟨?_, ?_, fun m' r hr => WF_Run m arg now tmo cb m' r hr hwf,
    WF_CancelTask m id now hn hwf, WF_checkTimeout m id now hn hwf,
    WF_Update m evs now hn hok hwf, WF_cleanup m now ma hwf,
    WF_Cancelactive m now hn hwf, WF_Clearall m now, WF_Clearfinished m hwf⟩
  · intro t hl
    exact recWF_iff_completed t (recWF_of_WF m id t hwf hl)
  · intro v hv
    unfold GetTaskInfo at hv
    cases hl : lookupT m.tasks id with
    | none => rw [hl] at hv; cases hv
    | some t =>
        rw [hl] at hv
        simp only [Option.map_some', Option.some.injEq] at hv
        rw [← hv]
        exact recWF_iff_completed t (recWF_of_WF m id t hwf hl)

/-- Witness for C2 at the freshly initialized manager. -/
theorem claim_C2_witness : WF (CancelTask initM 0 1).1 = true :=
  (claim_C2 initM 1 [] RunArg.single Option.none false 0 Option.none
    (by decide) (by decide) (by decide)).2.2.2.1

/-- Counterexample to claim C1 as stated: a task submitted with a
completion callback and finalized through user cancellation (CancelTask
at time 5) reaches the terminal status Cancelled; after the loop
acknowledges the cancellation and two further Update calls drain the
work, its completion callback has fired zero times, not exactly once —
the Update scan only processes records whose status is still
Pending/Running, and neither CancelTask nor the timeout callback
invokes completion callbacks. -/
theorem claim_C1_cex :
    (lookupT c1s4.tasks 0).map (fun t => (t.hasCb, t.status, t.callbackCount)) =
      some (true, TaskStatus.cancelled, 0) := rfl

/-- Claim C1 (amended): the completion callback fires exactly for
records finalized by the Update scan: when a record's handle is done
while its status is still Pending/Running, one scan pass finalizes it
to a terminal status with completed_at set (in the same record handed
to the callback) and raises the callback count by one exactly when a
callback is registered; a record already terminal is returned unchanged
by the scan; and CancelTask and the timeout callback never change any
record's callback count — so records finalized through user
cancellation or the timeout path never receive a callback invocation. -/
theorem claim_C1 (m : Manager) (id now : Nat) (t : AsyncIOTask)
    (hl : lookupT m.tasks id = some t) :
    (t.handle.hdone = true → isActive t.status = true →
      ∃ t', lookupT (scan m now).tasks id = some t' ∧
        t'.callbackCount =
          (if t.hasCb then t.callbackCount + 1 else t.callbackCount) ∧
        isTerminal t'.status = true ∧
        t'.completed_at.isSome = true) ∧
    (isTerminal t.status = true → lookupT (scan m now).tasks id = some t) ∧
    (∀ j now', cbCountAt (CancelTask m j now').1 id = cbCountAt m id) ∧
    (∀ j now', cbCountAt (checkTimeout m j now') id = cbCountAt m id) := by
  refine ⟨?_, ?_, ?_, ?_⟩
  · intro hd ha
    refine ⟨processRecord now t, ?_, processRecord_fire_count now t hd ha,
      processRecord_fire_terminal now t hd ha, ?_⟩
    · rw [lookupT_scan, hl]
      rfl
    · rw [(processRecord_fire_fields now t hd ha).2.2.2,
        finalizeRecord_completed]
      by_cases htr : optTruthy t.completed_at = true
      · rw [if_pos htr]
        exact isSome_of_optTruthy _ htr
      · rw [if_neg htr]
        rfl
  · intro hterm
    rw [lookupT_scan, hl]
    simp [processRecord_terminal now t hterm]
  · intro j now'
    unfold cbCountAt
    rw [CancelTask_lookup]
    by_cases hj : id = j
    · subst hj
      rw [if_pos rfl]
      cases hlj : lookupT m.tasks id with
      | none => rfl
      | some u =>
          simp only [Option.map_some']
          by_cases hdu : u.handle.hdone = true
          · rw [if_pos hdu]
          · rw [if_neg hdu]
            rfl
    · rw [if_neg hj]
  · intro j now'
    unfold cbCountAt
    rw [checkTimeout_lookup]
    by_cases hj : id = j
    · subst hj
      rw [if_pos rfl]
      cases hlj : lookupT m.tasks id with
      | none => rfl
      | some u =>
          simp only [Option.map_some']
          by_cases hau : isActive u.status = true
          · rw [if_pos hau, timeoutRecord_count]
          · rw [if_neg hau]
    · rw [if_neg hj]

/-- Witness for C1: the scan fires the callback of the done pending
record of wCbM exactly once. -/
theorem claim_C1_witness : cbCountAt (scan wCbM 5) 0 = some 1 := by
  obtain ⟨t', h1, h2, h3, h4⟩ := (claim_C1 wCbM 0 5 wCbTask rfl).1 rfl rfl
  unfold cbCountAt
  rw [h1]
  simp only [Option.map_some']
  rw [h2]
  rfl

end AIOM
